import Mathlib

/-!
# Verification of the Tetris game engine (`src/main.ts`)

Shallow embedding of the pure game-state engine of the repository:
the seeded LCG piece generator, the piece catalog and rotation tables,
the board, the collision predicates and the six `Action` classes.

Modelling conventions:
* JS numbers that the program only ever uses as integers are modelled as
  `Nat`/`Int` with exact arithmetic (the spec itself states the LCG with
  exact `mod` arithmetic).  For the LCG this abstraction coincides with the
  source's IEEE-754 doubles only while `a * seed + c` stays below `2^53`
  (integer seeds up to about `8.16 * 10^6`); for larger seeds the double
  product rounds, and the source's actual seeds are even fractional
  (`Math.random()` and its hash iterates).  Every concrete scenario
  computation in this file stays inside the exact regime.
* A board cell holds a JS value: a number, or `undefined` (from an array
  hole or an out-of-range read).  We model a cell as `Option Int`, with
  `none` standing for `undefined`.
* JS array indexing `l[i]` is `jsGet`, returning `none` (`undefined`) when
  the index is out of range.  Reading a property of `undefined`
  (e.g. `board[25][x]`) throws a `TypeError`; computations that can throw
  are modelled in `Except Unit`.
* The module-level mutable `sequence` object is represented by its seed,
  threaded explicitly through the actions that call `getNextBlock`.
* The `name` field of a `BlockGroup` is a string in the source, but only the
  seven tetromino names ever occur; we model it as the inductive `BlockName`.
* The `style` CSS string of a block group is rendering-only data and is
  omitted; the `RNG` field of the state (written once at start-up, never
  read) is kept as the seed of the stored sequence object.
-/

set_option maxRecDepth 10000

/-! ## Random generation of blocks (`RandomNumberSequence`, `getNextBlock`) -/

namespace LCG

/-- `m = 0x80000000` from `RandomNumberSequence`. -/
def m : ℕ := 0x80000000

/-- `a = 1103515245` from `RandomNumberSequence`. -/
def a : ℕ := 1103515245

/-- `c = 12345` from `RandomNumberSequence`. -/
def c : ℕ := 12345

/-- `hash = (seed) => (a * seed + c) % m`, in exact integer arithmetic.
The source evaluates this in IEEE-754 doubles, which agree with the exact
value only while `a * seed + c < 2^53`; e.g. at seed 230538014 the exact
value is `m - 1` but the rounded double computation yields 0.  All draws
taken by the concrete scenarios below use seeds inside the exact regime. -/
def hash (seed : ℕ) : ℕ := (a * seed + c) % m

/-- `scale = (hash) => hash / (m - 1)`, exact rational division. -/
def scale (h : ℕ) : ℚ := (h : ℚ) / ((m : ℚ) - 1)

/-- The `value` computed by the `RandomNumberSequence` constructor for a
given seed: `Math.floor(scale(hash(seed)) * 7) + 1`.  For a non-negative
numerator the floor of the exact quotient is natural division, so the
executable definition divides in `ℕ`; `rngValue_eq_floor` below proves it
equal to the literal floor-of-rational form. -/
def rngValue (seed : ℕ) : ℕ := 7 * hash seed / (m - 1) + 1

/-- The literal translation of the constructor's expression, with rational
`scale` and `Math.floor`. -/
def rngValueRat (seed : ℕ) : ℕ := (⌊scale (hash seed) * 7⌋).toNat + 1

end LCG

/-- The state of a `RandomNumberSequence` object: its private `seed` and its
public `value` (materialised in the constructor). -/
structure RandomNumberSequence where
  seed : ℕ
  value : ℕ
deriving DecidableEq, Repr

/-- `new RandomNumberSequence(seed)`. -/
def mkRandomNumberSequence (seed : ℕ) : RandomNumberSequence :=
  { seed := seed, value := LCG.rngValue seed }

/-- `next()` advances the seed by `hash` and returns the sequence constructed
from the new seed (this is also the new state of the mutated receiver). -/
def RandomNumberSequence.next (r : RandomNumberSequence) : RandomNumberSequence :=
  mkRandomNumberSequence (LCG.hash r.seed)

/-- The `k`-th element of the lazy sequence obtained by starting from `seed`
and chaining `next()` calls. -/
def nthState (seed : ℕ) : ℕ → RandomNumberSequence
  | 0 => mkRandomNumberSequence seed
  | k + 1 => (nthState seed k).next

/-! ## Blocks and the state -/

/-- The seven tetromino kinds (the `name` strings of the source). -/
inductive BlockName
  | IBLOCK | OBLOCK | TBLOCK | JBLOCK | LBLOCK | SBLOCK | ZBLOCK
deriving DecidableEq, Repr

/-- A single cell of a piece: `type Block = { x, y }`. -/
structure Block where
  x : ℤ
  y : ℤ
deriving DecidableEq, Repr

instance : Inhabited Block := ⟨⟨0, 0⟩⟩

/-- `type BlockGroup = { group, currentRotation, name, style }` (the
rendering-only `style` is omitted). -/
structure BlockGroup where
  group : List Block
  currentRotation : ℕ
  name : BlockName
deriving DecidableEq, Repr

/-- A board cell: a JS number or `undefined` (`none`). -/
abbrev Cell := Option ℤ

abbrev Row := List Cell

abbrev Board := List Row

namespace Constants

def BOARD_WIDTH : ℤ := 10

def BOARD_HEIGHT : ℤ := 20

def SCORE_PER_ROW : ℕ := 10

end Constants

/-! ## The block constants and the rotation lookup table -/

/-- The spawn `IBLOCK` constant. -/
def IBLOCK : BlockGroup :=
  { group := [⟨3, 0⟩, ⟨4, 0⟩, ⟨5, 0⟩, ⟨6, 0⟩], name := .IBLOCK, currentRotation := 1 }

/-- The spawn `OBLOCK` constant. -/
def OBLOCK : BlockGroup :=
  { group := [⟨4, 0⟩, ⟨5, 0⟩, ⟨4, 1⟩, ⟨5, 1⟩], name := .OBLOCK, currentRotation := 1 }

/-- The spawn `TBLOCK` constant. -/
def TBLOCK : BlockGroup :=
  { group := [⟨4, 0⟩, ⟨3, 1⟩, ⟨4, 1⟩, ⟨5, 1⟩], name := .TBLOCK, currentRotation := 1 }

/-- The spawn `JBLOCK` constant. -/
def JBLOCK : BlockGroup :=
  { group := [⟨3, 0⟩, ⟨3, 1⟩, ⟨4, 1⟩, ⟨5, 1⟩], name := .JBLOCK, currentRotation := 1 }

/-- The spawn `LBLOCK` constant. -/
def LBLOCK : BlockGroup :=
  { group := [⟨5, 0⟩, ⟨3, 1⟩, ⟨4, 1⟩, ⟨5, 1⟩], name := .LBLOCK, currentRotation := 1 }

/-- The spawn `SBLOCK` constant. -/
def SBLOCK : BlockGroup :=
  { group := [⟨4, 0⟩, ⟨5, 0⟩, ⟨3, 1⟩, ⟨4, 1⟩], name := .SBLOCK, currentRotation := 1 }

/-- The spawn `ZBLOCK` constant. -/
def ZBLOCK : BlockGroup :=
  { group := [⟨3, 0⟩, ⟨4, 0⟩, ⟨4, 1⟩, ⟨5, 1⟩], name := .ZBLOCK, currentRotation := 1 }

/-- The `switch` inside `getNextBlock` mapping a drawn number to a block
constant; every number other than 1–6 falls through to the `default`
case, `ZBLOCK`. -/
def blockForNum : ℕ → BlockGroup
  | 1 => IBLOCK
  | 2 => OBLOCK
  | 3 => TBLOCK
  | 4 => JBLOCK
  | 5 => LBLOCK
  | 6 => SBLOCK
  | _ => ZBLOCK

/-- `getNextBlock` reads the module-level mutable `sequence`:
`sequence.next()` replaces the global seed `g` by `hash g` and yields the
sequence constructed from the new seed, whose `value` is `rngValue (hash g)`.
Returns the drawn block together with the new global seed. -/
def getNextBlock (g : ℕ) : BlockGroup × ℕ :=
  (blockForNum (LCG.rngValue (LCG.hash g)), LCG.hash g)

/-- `BlockCoordinates`: the per-kind, per-rotation-index coordinate table.
Rotation indices outside 1–4 are absent from the table (`[]` here; the
engine only ever looks up indices produced by `toggleRotation`). -/
def BlockCoordinates : BlockName → ℕ → List Block
  | .IBLOCK, 1 => [⟨3, 0⟩, ⟨4, 0⟩, ⟨5, 0⟩, ⟨6, 0⟩]
  | .IBLOCK, 2 => [⟨4, 0⟩, ⟨4, 1⟩, ⟨4, 2⟩, ⟨4, 3⟩]
  | .IBLOCK, 3 => [⟨3, 1⟩, ⟨4, 1⟩, ⟨5, 1⟩, ⟨6, 1⟩]
  | .IBLOCK, 4 => [⟨5, 0⟩, ⟨5, 1⟩, ⟨5, 2⟩, ⟨5, 3⟩]
  | .OBLOCK, 1 => [⟨4, 0⟩, ⟨5, 0⟩, ⟨4, 1⟩, ⟨5, 1⟩]
  | .OBLOCK, 2 => [⟨4, 0⟩, ⟨5, 0⟩, ⟨4, 1⟩, ⟨5, 1⟩]
  | .OBLOCK, 3 => [⟨4, 0⟩, ⟨5, 0⟩, ⟨4, 1⟩, ⟨5, 1⟩]
  | .OBLOCK, 4 => [⟨4, 0⟩, ⟨5, 0⟩, ⟨4, 1⟩, ⟨5, 1⟩]
  | .TBLOCK, 1 => [⟨4, 0⟩, ⟨3, 1⟩, ⟨4, 1⟩, ⟨5, 1⟩]
  | .TBLOCK, 2 => [⟨4, 0⟩, ⟨3, 1⟩, ⟨4, 1⟩, ⟨4, 2⟩]
  | .TBLOCK, 3 => [⟨3, 1⟩, ⟨4, 1⟩, ⟨5, 1⟩, ⟨4, 2⟩]
  | .TBLOCK, 4 => [⟨4, 0⟩, ⟨4, 1⟩, ⟨4, 2⟩, ⟨5, 1⟩]
  | .JBLOCK, 1 => [⟨3, 0⟩, ⟨3, 1⟩, ⟨4, 1⟩, ⟨5, 1⟩]
  | .JBLOCK, 2 => [⟨4, 0⟩, ⟨3, 0⟩, ⟨4, 1⟩, ⟨4, 2⟩]
  | .JBLOCK, 3 => [⟨3, 1⟩, ⟨4, 1⟩, ⟨5, 1⟩, ⟨5, 2⟩]
  | .JBLOCK, 4 => [⟨4, 0⟩, ⟨4, 1⟩, ⟨4, 2⟩, ⟨5, 2⟩]
  | .LBLOCK, 1 => [⟨5, 0⟩, ⟨3, 1⟩, ⟨4, 1⟩, ⟨5, 1⟩]
  | .LBLOCK, 2 => [⟨4, 0⟩, ⟨4, 1⟩, ⟨4, 2⟩, ⟨5, 2⟩]
  | .LBLOCK, 3 => [⟨3, 1⟩, ⟨4, 1⟩, ⟨5, 1⟩, ⟨3, 2⟩]
  | .LBLOCK, 4 => [⟨3, 0⟩, ⟨4, 0⟩, ⟨4, 1⟩, ⟨4, 2⟩]
  | .SBLOCK, 1 => [⟨4, 0⟩, ⟨5, 0⟩, ⟨3, 1⟩, ⟨4, 1⟩]
  | .SBLOCK, 2 => [⟨3, 0⟩, ⟨3, 1⟩, ⟨4, 1⟩, ⟨4, 2⟩]
  | .SBLOCK, 3 => [⟨4, 0⟩, ⟨5, 0⟩, ⟨3, 1⟩, ⟨4, 1⟩]
  | .SBLOCK, 4 => [⟨3, 0⟩, ⟨3, 1⟩, ⟨4, 1⟩, ⟨4, 2⟩]
  | .ZBLOCK, 1 => [⟨3, 0⟩, ⟨4, 0⟩, ⟨4, 1⟩, ⟨5, 1⟩]
  | .ZBLOCK, 2 => [⟨4, 0⟩, ⟨3, 1⟩, ⟨4, 1⟩, ⟨3, 2⟩]
  | .ZBLOCK, 3 => [⟨3, 0⟩, ⟨4, 0⟩, ⟨4, 1⟩, ⟨5, 1⟩]
  | .ZBLOCK, 4 => [⟨4, 0⟩, ⟨3, 1⟩, ⟨4, 1⟩, ⟨3, 2⟩]
  | _, _ => []

/-- The initial empty `board` constant: 20 rows of 10 zero cells (written
out literally in the source). -/
def board : Board := List.replicate 20 (List.replicate 10 (some 0))

/-! ## Functions for moving blocks -/

/-- `moveDown = ({x, y}) => ({x: x, y: y + 1})`. -/
def moveDown (b : Block) : Block := ⟨b.x, b.y + 1⟩

/-- `moveUp = ({x, y}) => ({x: x, y: y - 1})`. -/
def moveUp (b : Block) : Block := ⟨b.x, b.y - 1⟩

/-- `moveLeft = ({x, y}) => ({x: x - 1, y: y})`. -/
def moveLeft (b : Block) : Block := ⟨b.x - 1, b.y⟩

/-- `moveRight = ({x, y}) => ({x: x + 1, y: y})`. -/
def moveRight (b : Block) : Block := ⟨b.x + 1, b.y⟩

/-- `updateBlock`: map a movement over every cell of the group. -/
def updateBlock (blockGroup : BlockGroup) (movement : Block → Block) : BlockGroup :=
  { blockGroup with group := blockGroup.group.map movement }

/-- `moveToBoard`: shift a freshly drawn block one row up. -/
def moveToBoard (blockGroup : BlockGroup) : BlockGroup :=
  updateBlock blockGroup moveUp

/-- `updateBoard`: burn the block group into the board (occupied cells
become the number 1, all other cells are kept). -/
def updateBoard (b : Board) (blockGroup : BlockGroup) : Board :=
  b.mapIdx fun rowIndex row =>
    row.mapIdx fun columnIndex cell =>
      if blockGroup.group.any
           (fun block => block.x == (columnIndex : ℤ) && block.y == (rowIndex : ℤ))
      then some 1 else cell

/-! ## Collision detection

`checkBlockCollision` indexes `board[convertNegatives(y)][x]`.  JS array
indexing yields `undefined` out of range; reading `[x]` on an `undefined`
row throws a `TypeError`.  The predicates that perform board lookups are
therefore valued in `Except Unit Bool`, `Except.error ()` being a thrown
`TypeError`. -/

/-- JS array indexing with an integer index: `undefined` (`none`) when out
of range. -/
def jsGet {α : Type} (l : List α) (i : ℤ) : Option α :=
  if 0 ≤ i then l.get? i.toNat else none

/-- `convertNegatives`: clamp negative (spawn) row indices to 0. -/
def convertNegatives (num : ℤ) : ℤ := if num < 0 then 0 else num

/-- `Array.prototype.some` over an effectful JS predicate: short-circuits on
the first `true`, propagates a thrown exception. -/
def jsSome {α : Type} (p : α → Except Unit Bool) : List α → Except Unit Bool
  | [] => .ok false
  | a :: as =>
    match p a with
    | .error e => .error e
    | .ok true => .ok true
    | .ok false => jsSome p as

/-- Evaluate `board[convertNegatives(block.y)][block.x] === 1` for one cell
of the group; throws when the row lookup is `undefined`. -/
def cellHit (b : Board) (block : Block) : Except Unit Bool :=
  match jsGet b (convertNegatives block.y) with
  | none => .error ()
  | some row => .ok ((jsGet row block.x).join == some 1)

/-- `checkBlockCollision`. -/
def checkBlockCollision (b : Board) (block : BlockGroup) : Except Unit Bool :=
  jsSome (cellHit b) block.group

/-- `checkSideCollision`: some cell's column is outside `[0, BOARD_WIDTH)`. -/
def checkSideCollision (block : BlockGroup) : Bool :=
  block.group.any fun b => b.x < 0 || Constants.BOARD_WIDTH ≤ b.x

/-- `checkBottomCollision`: some cell's row is `≥ BOARD_HEIGHT`. -/
def checkBottomCollision (block : BlockGroup) : Bool :=
  block.group.any fun b => Constants.BOARD_HEIGHT ≤ b.y

/-- `checkTopCollision`: some cell's row is negative. -/
def checkTopCollision (block : BlockGroup) : Bool :=
  block.group.any fun b => b.y < 0

/-- `checkEndGame = checkTopCollision(movedBlock) && checkBlockCollision(...)`;
`&&` short-circuits, so the board is only read when a cell is above the top. -/
def checkEndGame (movedBlock : BlockGroup) (b : Board) : Except Unit Bool :=
  if checkTopCollision movedBlock then checkBlockCollision b movedBlock else .ok false

/-- `cantMoveDown = checkBottomCollision(movedBlock) || checkBlockCollision(...)`;
the bottom test short-circuits the board read. -/
def cantMoveDown (movedBlock : BlockGroup) (b : Board) : Except Unit Bool :=
  if checkBottomCollision movedBlock then .ok true else checkBlockCollision b movedBlock

/-- `cantRotate`: the board lookup is evaluated FIRST, before the bottom
bound is checked — the source order is
`checkBlockCollision || checkBottomCollision || checkSideCollision || checkTopCollision`. -/
def cantRotate (movedBlock : BlockGroup) (b : Board) : Except Unit Bool :=
  match checkBlockCollision b movedBlock with
  | .error e => .error e
  | .ok hit =>
    .ok (hit || checkBottomCollision movedBlock || checkSideCollision movedBlock ||
      checkTopCollision movedBlock)

/-- `cantMoveSideways = checkBlockCollision(...) || checkSideCollision(...)`. -/
def cantMoveSideways (movedBlock : BlockGroup) (b : Board) : Except Unit Bool :=
  match checkBlockCollision b movedBlock with
  | .error e => .error e
  | .ok hit => .ok (hit || checkSideCollision movedBlock)

/-! ## The game state -/

/-- `type State` (the rendering-only `style` strings aside, all fields of
the source record; `RNG` is the seed of the lazy-sequence object stored at
start-up, which no action ever reads). -/
structure State where
  gameEnd : Bool
  boardState : Board
  currentBlock : BlockGroup
  nextBlock : BlockGroup
  heldBlock : Option BlockGroup
  holdStatus : Bool
  RNG : ℕ
  score : ℕ
  highScore : ℕ
  level : ℕ
deriving DecidableEq, Repr

/-- `BEGINNING_STATE`, parameterised by the module-load seed `s0` of the
global `sequence` (`Math.random()` in the source): the two start-up draws
and the stored `RNG` advance the global seed three times. -/
def BEGINNING_STATE (s0 : ℕ) : State :=
  let d1 := getNextBlock s0
  let d2 := getNextBlock d1.2
  { gameEnd := false
    boardState := board
    currentBlock := moveToBoard d1.1
    nextBlock := d2.1
    heldBlock := none
    holdStatus := false
    RNG := LCG.hash d2.2
    score := 0
    highScore := 0
    level := 1 }

/-! ## Actions -/

/-- `Rotate.toggleRotation`: 1→2→3→4, anything else →1. -/
def Rotate.toggleRotation (current : ℕ) : ℕ :=
  match current with
  | 1 => 2
  | 2 => 3
  | 3 => 4
  | _ => 1

/-- `Rotate.rotateBlock`: translate the catalog layout of the next rotation
index by the offset between the block's first cell and the catalog's stored
first cell.  The source indexes `group[0]`; every piece the engine builds
has four cells, so we read the head with a default. -/
def Rotate.rotateBlock (block : BlockGroup) : BlockGroup :=
  let originalCoordinates := BlockCoordinates block.name block.currentRotation
  let distX : ℤ := (block.group.headD default).x - (originalCoordinates.headD default).x
  let distY : ℤ := (block.group.headD default).y - (originalCoordinates.headD default).y
  let newRotation := Rotate.toggleRotation block.currentRotation
  let rotatedCoordinates :=
    (BlockCoordinates block.name newRotation).map fun p => ⟨distX + p.x, distY + p.y⟩
  { block with group := rotatedCoordinates, currentRotation := newRotation }

/-- `Rotate.apply`: no wall kicks — a rotation that `cantRotate` rejects is
a no-op.  Propagates the `TypeError` that `cantRotate` can throw. -/
def Rotate.apply (s : State) : Except Unit State :=
  let rotatedBlock := Rotate.rotateBlock s.currentBlock
  match cantRotate rotatedBlock s.boardState with
  | .error e => .error e
  | .ok true => .ok s
  | .ok false => .ok { s with currentBlock := rotatedBlock }

/-- `MoveSideways.apply` with its `change` function (`moveLeft`/`moveRight`
in the app). -/
def MoveSideways.apply (change : Block → Block) (s : State) : Except Unit State :=
  let movedBlock := updateBlock s.currentBlock change
  match cantMoveSideways movedBlock s.boardState with
  | .error e => .error e
  | .ok true => .ok s
  | .ok false => .ok { s with currentBlock := movedBlock }

/-- `MoveDownwards.updateScore`. -/
def MoveDownwards.updateScore (currentScore rowsCleared : ℕ) : ℕ :=
  currentScore + Constants.SCORE_PER_ROW * rowsCleared

/-- `MoveDownwards.updateLevel`. -/
def MoveDownwards.updateLevel (score : ℕ) : ℕ :=
  if score < 100 then 1 else if score ≤ 200 then 2 else 3

/-- A row that is entirely the number 1. -/
def fullRow (row : Row) : Bool := row.all fun c => c == some 1

/-- `MoveDownwards.countClearedRows`: number of rows of 1's. -/
def MoveDownwards.countClearedRows (b : Board) : ℕ :=
  (b.filter fullRow).length

/-- `MoveDownwards.replaceClearedRows`.  The source builds each fresh row as
`[...Array(10).map(() => 0)]`: `Array(10)` is a length-10 array of holes;
`map` skips holes and keeps them, so spreading produces ten `undefined`
entries — NOT ten zeros.  A fresh row is therefore `replicate 10 none`. -/
def MoveDownwards.replaceClearedRows (b : Board) (clearedRows : ℕ) : Board :=
  let clearedBoard := b.filter fun row => !fullRow row
  let newRows : Board := List.replicate clearedRows (List.replicate 10 none)
  newRows ++ clearedBoard

/-- `MoveDownwards.apply`: end-game check, free fall, or lock with optional
line clear.  Takes and returns the global sequence seed because the lock
branch draws a preview block via `getNextBlock`. -/
def MoveDownwards.apply (s : State) (g : ℕ) : Except Unit (State × ℕ) :=
  match checkEndGame s.currentBlock s.boardState with
  | .error e => .error e
  | .ok true =>
    let newHighScore := if s.highScore < s.score then s.score else s.highScore
    .ok ({ s with gameEnd := true, highScore := newHighScore }, g)
  | .ok false =>
    let movedBlock := updateBlock s.currentBlock moveDown
    match cantMoveDown movedBlock s.boardState with
    | .error e => .error e
    | .ok false => .ok ({ s with currentBlock := movedBlock }, g)
    | .ok true =>
      let newBoard := updateBoard s.boardState s.currentBlock
      let clearedRows := MoveDownwards.countClearedRows newBoard
      let d := getNextBlock g
      if clearedRows ≠ 0 then
        let clearedBoard := MoveDownwards.replaceClearedRows newBoard clearedRows
        let newScore := MoveDownwards.updateScore s.score clearedRows
        let newLevel := MoveDownwards.updateLevel newScore
        .ok ({ s with
                boardState := clearedBoard
                currentBlock := moveToBoard s.nextBlock
                nextBlock := d.1
                holdStatus := false
                score := newScore
                level := newLevel }, d.2)
      else
        .ok ({ s with
                boardState := newBoard
                currentBlock := moveToBoard s.nextBlock
                nextBlock := d.1
                holdStatus := false }, d.2)

/-- `Tick.apply`: equivalent to `MoveDownwards` when the state's level
matches the tick's level, otherwise a no-op. -/
def Tick.apply (level : ℕ) (s : State) (g : ℕ) : Except Unit (State × ℕ) :=
  if s.level = level then MoveDownwards.apply s g else .ok (s, g)

/-- `Reset.apply`: only while `gameEnd` is set — back to `BEGINNING_STATE`
with two fresh draws, keeping the high score. -/
def Reset.apply (s0 : ℕ) (s : State) (g : ℕ) : State × ℕ :=
  if s.gameEnd then
    let d1 := getNextBlock g
    let d2 := getNextBlock d1.2
    ({ BEGINNING_STATE s0 with
        currentBlock := moveToBoard d1.1
        nextBlock := d2.1
        highScore := s.highScore }, d2.2)
  else (s, g)

/-- `HoldBlock.apply`: at most once per piece; the stored block's geometry
is reset to the rotation-1 catalog layout of its kind, and so is the
retrieved block's on a swap. -/
def HoldBlock.apply (s : State) (g : ℕ) : State × ℕ :=
  if s.holdStatus then (s, g)
  else
    let currentBlock : BlockGroup :=
      { s.currentBlock with group := BlockCoordinates s.currentBlock.name 1 }
    match s.heldBlock with
    | some held =>
      let heldBlock : BlockGroup := { held with group := BlockCoordinates held.name 1 }
      ({ s with currentBlock := heldBlock, heldBlock := some currentBlock,
                holdStatus := true }, g)
    | none =>
      let d := getNextBlock g
      ({ s with currentBlock := d.1, heldBlock := some currentBlock,
                holdStatus := true }, d.2)

/-- The closed set of actions of the engine (`Action` itself is taken by
Mathlib, hence the prefixed name). -/
inductive GameAction where
  | tick (level : ℕ)
  | rotate
  | reset
  | moveSideways (change : Block → Block)
  | moveDownwards
  | holdBlock

/-- Dispatch of the interface method `apply`, threading the global sequence seed `g`
(`s0` is the module-load seed captured by `BEGINNING_STATE`, used only by
`Reset`). -/
def GameAction.apply (s0 : ℕ) : GameAction → State → ℕ → Except Unit (State × ℕ)
  | .tick level, s, g => Tick.apply level s g
  | .rotate, s, g => (Rotate.apply s).map fun s' => (s', g)
  | .reset, s, g => .ok (Reset.apply s0 s g)
  | .moveSideways change, s, g => (MoveSideways.apply change s).map fun s' => (s', g)
  | .moveDownwards, s, g => MoveDownwards.apply s g
  | .holdBlock, s, g => .ok (HoldBlock.apply s g)

/-- Iterated `MoveDownwards.apply`, used by the concrete gravity scenarios. -/
def iterMoveDown : ℕ → State → ℕ → Except Unit (State × ℕ)
  | 0, s, g => .ok (s, g)
  | n + 1, s, g =>
    match MoveDownwards.apply s g with
    | .error e => .error e
    | .ok p => iterMoveDown n p.1 p.2

/-- Decidable equality of `Except` results, used to evaluate the engine on
concrete scenarios. -/
instance {ε α : Type} [DecidableEq ε] [DecidableEq α] : DecidableEq (Except ε α) := by
  intro x y
  cases x <;> cases y
  case error.error a b =>
    exact if h : a = b then .isTrue (by rw [h]) else .isFalse (by simp [h])
  case error.ok a b => exact .isFalse (by simp)
  case ok.error a b => exact .isFalse (by simp)
  case ok.ok a b =>
    exact if h : a = b then .isTrue (by rw [h]) else .isFalse (by simp [h])

/-! ## Concrete scenario states and auxiliary relations -/

/-- A start state with the I-piece freshly spawned on an empty board (the
`BEGINNING_STATE` shape with a known preview piece and global seed 0). -/
def scenarioInit : State :=
  { gameEnd := false, boardState := board, currentBlock := moveToBoard IBLOCK,
    nextBlock := OBLOCK, heldBlock := none, holdStatus := false, RNG := 0,
    score := 0, highScore := 0, level := 1 }

/-- The horizontal I-piece resting on the bottom row (rows are 0-indexed,
row 19 is the lowest). -/
def IBottom : BlockGroup :=
  { group := [⟨3, 19⟩, ⟨4, 19⟩, ⟨5, 19⟩, ⟨6, 19⟩], currentRotation := 1, name := .IBLOCK }

/-- `scenarioInit` after the I-piece has fallen to the bottom row. -/
def restingState : State := { scenarioInit with currentBlock := IBottom }

/-- The board obtained by locking the I-piece into row 19 of the empty
board. -/
def lockedBoard : Board :=
  List.replicate 19 (List.replicate 10 (some 0)) ++
    [[some 0, some 0, some 0, some 1, some 1, some 1, some 1, some 0, some 0, some 0]]

/-- Bottom row occupied everywhere except columns 3–6 (the I-piece's
landing columns). -/
def rowScenarioBoard : Board :=
  List.replicate 19 (List.replicate 10 (some 0)) ++
    [[some 1, some 1, some 1, some 0, some 0, some 0, some 0, some 1, some 1, some 1]]

/-- A state about to lock the I-piece into the almost-full bottom row,
completing it. -/
def rowScenarioState : State :=
  { scenarioInit with boardState := rowScenarioBoard, currentBlock := IBottom }

/-- Top row occupied at columns 3–6: the I-piece's spawn cells are blocked. -/
def blockedBoard : Board :=
  [[some 0, some 0, some 0, some 1, some 1, some 1, some 1, some 0, some 0, some 0]] ++
    List.replicate 19 (List.replicate 10 (some 0))

/-- A state whose spawning piece (still above the visible top) already
overlaps the board: `MoveDownwards` ends the game here. -/
def spawnBlockedState : State := { scenarioInit with boardState := blockedBoard }

/-- The game-over state `MoveDownwards` produces from `spawnBlockedState`. -/
def endedState : State := { spawnBlockedState with gameEnd := true }

/-- A held piece stored in its rotation-2 layout. -/
def heldExample : BlockGroup :=
  { group := BlockCoordinates .TBLOCK 2, currentRotation := 2, name := .TBLOCK }

/-- `scenarioInit` with a piece already in the hold slot. -/
def holdSwapState : State := { scenarioInit with heldBlock := some heldExample }

/-- Translation of a catalog layout by a cell offset, exactly as
`rotateBlock` applies it. -/
def translateGroup (dx dy : ℤ) (l : List Block) : List Block :=
  l.map fun p => ⟨dx + p.x, dy + p.y⟩

/-- The pieces reachable by spawning, movement and rotation: the rotation
index is one of the four table indices and the cells are the catalog layout
for that index translated by some offset. -/
def Aligned (b : BlockGroup) : Prop :=
  (b.currentRotation = 1 ∨ b.currentRotation = 2 ∨ b.currentRotation = 3 ∨
    b.currentRotation = 4) ∧
  ∃ dx dy : ℤ, b.group = translateGroup dx dy (BlockCoordinates b.name b.currentRotation)

/-- Two states that agree on every field except possibly `gameEnd`. -/
def EqExceptGameEnd (s t : State) : Prop :=
  s.boardState = t.boardState ∧ s.currentBlock = t.currentBlock ∧
  s.nextBlock = t.nextBlock ∧ s.heldBlock = t.heldBlock ∧
  s.holdStatus = t.holdStatus ∧ s.RNG = t.RNG ∧ s.score = t.score ∧
  s.highScore = t.highScore ∧ s.level = t.level

instance (s t : State) : Decidable (EqExceptGameEnd s t) := by
  unfold EqExceptGameEnd
  infer_instance

/-- Two action results that agree up to the `gameEnd` field: both throw, or
both succeed with the same global seed and states equal outside `gameEnd`. -/
def ResultAgreesExceptGameEnd : Except Unit (State × ℕ) → Except Unit (State × ℕ) → Prop
  | .error _, .error _ => True
  | .ok p, .ok q => p.2 = q.2 ∧ EqExceptGameEnd p.1 q.1
  | _, _ => False

/-! ## Supporting lemmas -/

/-- For a non-negative numerator, `Math.floor` of the exact rational
quotient in the constructor's expression is natural division: the literal
translation `rngValueRat` agrees with the executable `rngValue`. -/
theorem LCG.rngValue_eq_floor (seed : ℕ) : rngValueRat seed = rngValue seed := by
  unfold LCG.rngValueRat LCG.rngValue LCG.scale
  have hm : ((LCG.m : ℚ) - 1) = ((LCG.m - 1 : ℕ) : ℚ) := by
    rw [Nat.cast_sub (by norm_num [LCG.m])]
    norm_num
  have h1 : (LCG.hash seed : ℚ) / ((LCG.m : ℚ) - 1) * 7 = ((7 * LCG.hash seed : ℕ) : ℚ) / ((LCG.m - 1 : ℕ) : ℚ) := by
    rw [hm]
    push_cast
    ring
  rw [h1]
  have h2 : (((7 * LCG.hash seed : ℕ) : ℤ) : ℚ) = ((7 * LCG.hash seed : ℕ) : ℚ) := by push_cast; ring
  rw [← h2, Rat.floor_intCast_div_natCast]
  rw [show ((7 * LCG.hash seed : ℕ) : ℤ) / ((LCG.m - 1 : ℕ) : ℤ) = ((7 * LCG.hash seed / (LCG.m - 1) : ℕ) : ℤ)
       from (Int.natCast_div _ _).symm]
  rw [Int.toNat_natCast]

/-- The hidden seed of the `k`-th chained sequence object is the `k`-fold
hash of the starting seed. -/
theorem nthState_seed (seed k : ℕ) : (nthState seed k).seed = LCG.hash^[k] seed := by
  induction k with
  | zero => rfl
  | succ k ih =>
    simp [nthState, RandomNumberSequence.next, mkRandomNumberSequence, ih,
      Function.iterate_succ_apply']

/-- The materialised `value` of any chained sequence object is `rngValue` of
its seed. -/
theorem nthState_value (seed k : ℕ) :
    (nthState seed k).value = LCG.rngValue ((nthState seed k).seed) := by
  cases k <;> rfl

/-! ## Claim theorems -/

/-- **C5.** For every seed, two random sequences started from the same seed
produce the identical sequence of draws: the `k`-th draw is the pure
function `Math.floor(scale(hash^(k+1)(seed)) * 7) + 1` of the seed, so two
runs from equal seeds agree at every position. -/
theorem rng_sequence_deterministic (s t : ℕ) (h : s = t) (k : ℕ) :
    (nthState s k).value = (nthState t k).value ∧
    (nthState s k).value = (⌊LCG.scale (LCG.hash^[k + 1] s) * 7⌋).toNat + 1 := by
  subst h
  refine ⟨rfl, ?_⟩
  rw [nthState_value, nthState_seed, Function.iterate_succ_apply']
  exact (LCG.rngValue_eq_floor _).symm

/-- Witness for C5 at seed 5, position 3. -/
theorem rng_sequence_deterministic_witness :
    (nthState 5 3).value = (nthState 5 3).value ∧
    (nthState 5 3).value = (⌊LCG.scale (LCG.hash^[4] 5) * 7⌋).toNat + 1 :=
  rng_sequence_deterministic 5 5 rfl 3

/-- The draw range in the exact-integer model of the LCG: always in
`[1, 8]`, reaching 8 exactly when the hash lands on `m - 1` (where `scale`
is exactly 1).  Whether the source, computing in IEEE-754 doubles over
fractional seeds, can realise that boundary case is a floating-point
question outside this model: at the unique integer residue 230538014
solving `hash seed = m - 1` exactly, the rounded double computation hashes
to 0 instead. -/
theorem rngValue_range_in_model (seed : ℕ) :
    1 ≤ LCG.rngValue seed ∧ LCG.rngValue seed ≤ 8 ∧
    (LCG.rngValue seed = 8 ↔ LCG.hash seed = LCG.m - 1) := by
  have hlt : LCG.hash seed < 2147483648 := by
    have h := Nat.mod_lt (LCG.a * seed + LCG.c) (show 0 < LCG.m by norm_num [LCG.m])
    simpa [LCG.hash, LCG.m] using h
  unfold LCG.rngValue
  have hm : LCG.m - 1 = 2147483647 := by norm_num [LCG.m]
  rw [hm]
  omega

/-- The `switch` of `getNextBlock` is total: 0 and every value of 7 or more
— everything outside the six mapped draws — falls through to the `default`
kind `ZBLOCK`. -/
theorem blockForNum_default (n : ℕ) :
    blockForNum 0 = ZBLOCK ∧ blockForNum (n + 7) = ZBLOCK := ⟨rfl, rfl⟩

/-- **C9.** `Tick(level)` equals `MoveDownwards` on states whose level
matches the tick's level and is the identity (with the seed unchanged and
no error) otherwise. -/
theorem tick_level_gate (s : State) (g : ℕ) (level : ℕ) :
    (s.level = level → Tick.apply level s g = MoveDownwards.apply s g) ∧
    (s.level ≠ level → Tick.apply level s g = .ok (s, g)) := by
  constructor <;> intro h <;> simp [Tick.apply, h]

/-- Witness for C9: a level-1 state ticked at levels 1 and 2. -/
theorem tick_level_gate_witness :
    Tick.apply 1 scenarioInit 0 = MoveDownwards.apply scenarioInit 0 ∧
    Tick.apply 2 scenarioInit 0 = .ok (scenarioInit, 0) :=
  ⟨(tick_level_gate scenarioInit 0 1).1 rfl,
   (tick_level_gate scenarioInit 0 2).2 (by decide)⟩

/-- **C7.** Whenever `holdStatus` is false, `HoldBlock` stores the active
piece with its cells reset to the rotation-1 catalog layout of its kind,
and when a piece was already held, the retrieved piece likewise reappears
with the rotation-1 layout of its kind — never in the stored geometry. -/
theorem holdBlock_resets_orientation (s : State) (g : ℕ) (h : s.holdStatus = false) :
    (HoldBlock.apply s g).1.heldBlock =
      some { s.currentBlock with group := BlockCoordinates s.currentBlock.name 1 } ∧
    ∀ held, s.heldBlock = some held →
      (HoldBlock.apply s g).1.currentBlock =
        { held with group := BlockCoordinates held.name 1 } := by
  unfold HoldBlock.apply
  rw [h]
  cases hh : s.heldBlock with
  | none => simp
  | some held => simp

/-- Witness for C7: holding with a rotation-2 T-piece in the hold slot. -/
theorem holdBlock_resets_orientation_witness :
    (HoldBlock.apply holdSwapState 0).1.heldBlock =
      some { holdSwapState.currentBlock with
              group := BlockCoordinates holdSwapState.currentBlock.name 1 } ∧
    (HoldBlock.apply holdSwapState 0).1.currentBlock =
      { heldExample with group := BlockCoordinates heldExample.name 1 } :=
  ⟨(holdBlock_resets_orientation holdSwapState 0 rfl).1,
   (holdBlock_resets_orientation holdSwapState 0 rfl).2 heldExample rfl⟩

/-- `toggleRotation` keeps the rotation index inside the table. -/
theorem toggleRotation_mem {r : ℕ} (hr : r = 1 ∨ r = 2 ∨ r = 3 ∨ r = 4) :
    Rotate.toggleRotation r = 1 ∨ Rotate.toggleRotation r = 2 ∨
    Rotate.toggleRotation r = 3 ∨ Rotate.toggleRotation r = 4 := by
  rcases hr with rfl | rfl | rfl | rfl <;> simp [Rotate.toggleRotation]

/-- One rotation of a catalog layout translated by any offset is the
catalog layout of the next rotation index translated by the same offset. -/
theorem rotateBlock_aligned_step (n : BlockName) (r : ℕ)
    (hr : r = 1 ∨ r = 2 ∨ r = 3 ∨ r = 4) (dx dy : ℤ) :
    Rotate.rotateBlock ⟨translateGroup dx dy (BlockCoordinates n r), r, n⟩ =
      ⟨translateGroup dx dy (BlockCoordinates n (Rotate.toggleRotation r)),
        Rotate.toggleRotation r, n⟩ := by
  rcases hr with rfl | rfl | rfl | rfl <;> cases n <;>
    simp [Rotate.rotateBlock, Rotate.toggleRotation, BlockCoordinates,
      translateGroup]

/-- Every piece the draw switch returns is aligned (spawn layouts are the
rotation-1 catalog entries translated by offset zero). -/
theorem aligned_blockForNum (n : ℕ) : Aligned (blockForNum n) := by
  have hZ : Aligned ZBLOCK := ⟨Or.inl rfl, 0, 0, by decide⟩
  rcases n with _ | _ | _ | _ | _ | _ | _ | n
  · exact hZ
  · exact ⟨Or.inl rfl, 0, 0, by decide⟩
  · exact ⟨Or.inl rfl, 0, 0, by decide⟩
  · exact ⟨Or.inl rfl, 0, 0, by decide⟩
  · exact ⟨Or.inl rfl, 0, 0, by decide⟩
  · exact ⟨Or.inl rfl, 0, 0, by decide⟩
  · exact ⟨Or.inl rfl, 0, 0, by decide⟩
  · exact hZ

/-- The four movement functions preserve alignment (they translate the
whole group uniformly). -/
theorem aligned_updateBlock {b : BlockGroup} (h : Aligned b)
    (mv : Block → Block) (a c : ℤ) (hmv : ∀ p, mv p = ⟨p.x + a, p.y + c⟩) :
    Aligned (updateBlock b mv) := by
  obtain ⟨hr, dx, dy, hg⟩ := h
  refine ⟨hr, dx + a, dy + c, ?_⟩
  simp only [updateBlock, hg, translateGroup, List.map_map]
  refine List.map_congr_left fun p _ => ?_
  rw [Function.comp_apply, hmv]
  simp only [Block.mk.injEq]
  omega

/-- Rotation preserves alignment. -/
theorem aligned_rotateBlock {b : BlockGroup} (h : Aligned b) :
    Aligned (Rotate.rotateBlock b) := by
  obtain ⟨hr, dx, dy, hg⟩ := h
  obtain ⟨group, rot, name⟩ := b
  simp only at hr hg
  subst hg
  rw [rotateBlock_aligned_step name rot hr dx dy]
  exact ⟨toggleRotation_mem hr, dx, dy, rfl⟩

/-- **C3.** For every piece of each of the 7 kinds in an aligned position —
the invariant satisfied by spawning (`aligned_blockForNum`), by the four
movements (`aligned_updateBlock`) and by prior rotations
(`aligned_rotateBlock`) — four consecutive `rotateBlock` applications
return the piece unchanged: same cells and same rotation index. -/
theorem rotate_four_times_identity (b : BlockGroup) (h : Aligned b) :
    Rotate.rotateBlock (Rotate.rotateBlock (Rotate.rotateBlock
      (Rotate.rotateBlock b))) = b := by
  obtain ⟨hr, dx, dy, hg⟩ := h
  obtain ⟨group, rot, name⟩ := b
  simp only at hr hg
  subst hg
  rw [rotateBlock_aligned_step name rot hr dx dy,
    rotateBlock_aligned_step name _ (toggleRotation_mem hr) dx dy,
    rotateBlock_aligned_step name _ (toggleRotation_mem (toggleRotation_mem hr)) dx dy,
    rotateBlock_aligned_step name _
      (toggleRotation_mem (toggleRotation_mem (toggleRotation_mem hr))) dx dy]
  rcases hr with rfl | rfl | rfl | rfl <;> rfl

/-- Witness for C3: four rotations of the spawned I-piece. -/
theorem rotate_four_times_identity_witness :
    Rotate.rotateBlock (Rotate.rotateBlock (Rotate.rotateBlock
      (Rotate.rotateBlock IBLOCK))) = IBLOCK :=
  rotate_four_times_identity IBLOCK ⟨Or.inl rfl, 0, 0, by decide⟩

/-- A successful rotation never changes the high score. -/
theorem rotate_apply_highScore {s s' : State} (h : Rotate.apply s = .ok s') :
    s'.highScore = s.highScore := by
  unfold Rotate.apply at h
  dsimp only at h
  split at h
  · simp_all
  · simp_all
  · simp only [Except.ok.injEq] at h
    subst h
    rfl

/-- A successful sideways move never changes the high score. -/
theorem moveSideways_apply_highScore {change : Block → Block} {s s' : State}
    (h : MoveSideways.apply change s = .ok s') : s'.highScore = s.highScore := by
  unfold MoveSideways.apply at h
  dsimp only at h
  split at h
  · simp_all
  · simp_all
  · simp only [Except.ok.injEq] at h
    subst h
    rfl

/-- A successful downward move never decreases the high score (the end-game
branch raises it to `max score highScore`; every other branch keeps it). -/
theorem moveDownwards_apply_highScore {s : State} {g : ℕ} {p : State × ℕ}
    (h : MoveDownwards.apply s g = .ok p) : s.highScore ≤ p.1.highScore := by
  unfold MoveDownwards.apply at h
  split at h
  · simp_all
  · simp only [Except.ok.injEq] at h
    subst h
    dsimp only
    split <;> omega
  · dsimp only at h
    split at h
    · simp_all
    · simp only [Except.ok.injEq] at h
      subst h
      rfl
    · split at h <;>
        · simp only [Except.ok.injEq] at h
          subst h
          rfl

/-- `HoldBlock` never changes the high score. -/
theorem holdBlock_apply_highScore (s : State) (g : ℕ) :
    (HoldBlock.apply s g).1.highScore = s.highScore := by
  unfold HoldBlock.apply
  split
  · rfl
  · split <;> rfl

/-- `Reset` explicitly preserves the high score. -/
theorem reset_apply_highScore (s0 : ℕ) (s : State) (g : ℕ) :
    (Reset.apply s0 s g).1.highScore = s.highScore := by
  unfold Reset.apply
  split <;> rfl

/-- **C8.** For every action and every state, the high score of a produced
state is at least the high score of the input state: `highScore` is
monotonically non-decreasing along any applied action sequence. -/
theorem highScore_monotone (s0 : ℕ) (a : GameAction) (s : State) (g : ℕ)
    (p : State × ℕ) (h : GameAction.apply s0 a s g = .ok p) :
    s.highScore ≤ p.1.highScore := by
  cases a with
  | tick level =>
    simp only [GameAction.apply] at h
    unfold Tick.apply at h
    split at h
    · exact moveDownwards_apply_highScore h
    · cases h
      exact le_refl _
  | rotate =>
    simp only [GameAction.apply] at h
    cases hr : Rotate.apply s with
    | error e => rw [hr] at h; simp [Except.map] at h
    | ok s' =>
      rw [hr] at h
      simp only [Except.map, Except.ok.injEq] at h
      subst h
      exact le_of_eq (rotate_apply_highScore hr).symm
  | reset =>
    simp only [GameAction.apply] at h
    simp only [Except.ok.injEq] at h
    subst h
    exact le_of_eq (reset_apply_highScore s0 s g).symm
  | moveSideways change =>
    simp only [GameAction.apply] at h
    cases hr : MoveSideways.apply change s with
    | error e => rw [hr] at h; simp [Except.map] at h
    | ok s' =>
      rw [hr] at h
      simp only [Except.map, Except.ok.injEq] at h
      subst h
      exact le_of_eq (moveSideways_apply_highScore hr).symm
  | moveDownwards =>
    simp only [GameAction.apply] at h
    exact moveDownwards_apply_highScore h
  | holdBlock =>
    simp only [GameAction.apply] at h
    simp only [Except.ok.injEq] at h
    subst h
    exact le_of_eq (holdBlock_apply_highScore s g).symm

/-- Witness for C8: the end-game transition from `spawnBlockedState`. -/
theorem highScore_monotone_witness :
    spawnBlockedState.highScore ≤ (endedState, 0).1.highScore :=
  highScore_monotone 0 .moveDownwards spawnBlockedState 0 (endedState, 0) (by decide)

/-- Every state agrees with its own `gameEnd` overwrite outside `gameEnd`. -/
theorem eqExceptGameEnd_setGameEnd (s : State) (b : Bool) :
    EqExceptGameEnd s { s with gameEnd := b } :=
  ⟨rfl, rfl, rfl, rfl, rfl, rfl, rfl, rfl, rfl⟩

/-- A pair of states that differ at most in `gameEnd` is a `gameEnd`
overwrite. -/
theorem eqExceptGameEnd_eq {s t : State} (h : EqExceptGameEnd s t) :
    t = { s with gameEnd := t.gameEnd } := by
  obtain ⟨h1, h2, h3, h4, h5, h6, h7, h8, h9⟩ := h
  obtain ⟨gE, bs, cb, nb, hb, hst, rng, sc, hsc, lv⟩ := s
  obtain ⟨gE', bs', cb', nb', hb', hst', rng', sc', hsc', lv'⟩ := t
  dsimp only at h1 h2 h3 h4 h5 h6 h7 h8 h9 ⊢
  subst h1 h2 h3 h4 h5 h6 h7 h8 h9
  rfl

/-- `Rotate` never reads `gameEnd`: on two states that differ only there,
the results differ at most in `gameEnd`. -/
theorem rotate_apply_agrees (s : State) (b : Bool) (g : ℕ) :
    ResultAgreesExceptGameEnd ((Rotate.apply s).map fun s' => (s', g))
      ((Rotate.apply { s with gameEnd := b }).map fun s' => (s', g)) := by
  obtain ⟨gE, bs, cb, nb, hb, hst, rng, sc, hsc, lv⟩ := s
  unfold Rotate.apply
  dsimp only
  cases hc : cantRotate (Rotate.rotateBlock cb) bs with
  | error e => trivial
  | ok v =>
    cases v with
    | true => exact ⟨rfl, rfl, rfl, rfl, rfl, rfl, rfl, rfl, rfl, rfl⟩
    | false => exact ⟨rfl, rfl, rfl, rfl, rfl, rfl, rfl, rfl, rfl, rfl⟩

/-- `MoveSideways` never reads `gameEnd`. -/
theorem moveSideways_apply_agrees (change : Block → Block) (s : State) (b : Bool) (g : ℕ) :
    ResultAgreesExceptGameEnd ((MoveSideways.apply change s).map fun s' => (s', g))
      ((MoveSideways.apply change { s with gameEnd := b }).map fun s' => (s', g)) := by
  obtain ⟨gE, bs, cb, nb, hb, hst, rng, sc, hsc, lv⟩ := s
  unfold MoveSideways.apply
  dsimp only
  cases hc : cantMoveSideways (updateBlock cb change) bs with
  | error e => trivial
  | ok v =>
    cases v with
    | true => exact ⟨rfl, rfl, rfl, rfl, rfl, rfl, rfl, rfl, rfl, rfl⟩
    | false => exact ⟨rfl, rfl, rfl, rfl, rfl, rfl, rfl, rfl, rfl, rfl⟩

/-- `HoldBlock` never reads `gameEnd`. -/
theorem holdBlock_apply_agrees (s : State) (b : Bool) (g : ℕ) :
    ResultAgreesExceptGameEnd (.ok (HoldBlock.apply s g))
      (.ok (HoldBlock.apply { s with gameEnd := b } g)) := by
  obtain ⟨gE, bs, cb, nb, hb, hst, rng, sc, hsc, lv⟩ := s
  unfold HoldBlock.apply
  dsimp only
  cases hst with
  | true => exact ⟨rfl, rfl, rfl, rfl, rfl, rfl, rfl, rfl, rfl, rfl⟩
  | false =>
    cases hb with
    | none => exact ⟨rfl, rfl, rfl, rfl, rfl, rfl, rfl, rfl, rfl, rfl⟩
    | some held => exact ⟨rfl, rfl, rfl, rfl, rfl, rfl, rfl, rfl, rfl, rfl⟩

/-- `MoveDownwards` reads no part of `gameEnd` either: on two states that
differ only there, it throws on both or succeeds on both with the same seedable
results up to `gameEnd`. -/
theorem moveDownwards_apply_agrees (s : State) (b : Bool) (g : ℕ) :
    ResultAgreesExceptGameEnd (MoveDownwards.apply s g)
      (MoveDownwards.apply { s with gameEnd := b } g) := by
  obtain ⟨gE, bs, cb, nb, hb, hst, rng, sc, hsc, lv⟩ := s
  unfold MoveDownwards.apply
  dsimp only
  cases he : checkEndGame cb bs with
  | error e => trivial
  | ok v =>
    cases v with
    | true => exact ⟨rfl, rfl, rfl, rfl, rfl, rfl, rfl, rfl, rfl, rfl⟩
    | false =>
      cases hm : cantMoveDown (updateBlock cb moveDown) bs with
      | error e => trivial
      | ok v2 =>
        cases v2 with
        | false => exact ⟨rfl, rfl, rfl, rfl, rfl, rfl, rfl, rfl, rfl, rfl⟩
        | true =>
          dsimp only
          by_cases hcl : MoveDownwards.countClearedRows (updateBoard bs cb) ≠ 0
          · rw [if_pos hcl, if_pos hcl]
            exact ⟨rfl, rfl, rfl, rfl, rfl, rfl, rfl, rfl, rfl, rfl⟩
          · rw [if_neg hcl, if_neg hcl]
            exact ⟨rfl, rfl, rfl, rfl, rfl, rfl, rfl, rfl, rfl, rfl⟩

/-- `Tick` dispatches on the level only, never on `gameEnd`. -/
theorem tick_apply_agrees (level : ℕ) (s : State) (b : Bool) (g : ℕ) :
    ResultAgreesExceptGameEnd (Tick.apply level s g)
      (Tick.apply level { s with gameEnd := b } g) := by
  unfold Tick.apply
  dsimp only
  by_cases hl : s.level = level
  · simp only [if_pos hl]
    exact moveDownwards_apply_agrees s b g
  · simp only [if_neg hl]
    exact ⟨rfl, eqExceptGameEnd_setGameEnd s b⟩

/-- **C10.** Only `Reset` inspects `gameEnd`: each of the other actions,
applied to two states that differ at most in `gameEnd`, throws on both or
succeeds on both with the same drawn seed and result states that differ at
most in `gameEnd` — so the ordinary transitions still run after the game
has ended, and concretely `HoldBlock` swaps the active piece of the
game-over state that `MoveDownwards` reaches from `spawnBlockedState`. -/
theorem actions_ignore_gameEnd :
    (∀ (s0 : ℕ) (a : GameAction), a ≠ GameAction.reset → ∀ s t g,
      EqExceptGameEnd s t →
      ResultAgreesExceptGameEnd (GameAction.apply s0 a s g) (GameAction.apply s0 a t g)) ∧
    (MoveDownwards.apply spawnBlockedState 0 = .ok (endedState, 0) ∧
     endedState.gameEnd = true ∧
     (HoldBlock.apply endedState 0).1.currentBlock ≠ endedState.currentBlock) := by
  constructor
  · intro s0 a ha s t g hE
    have ht := eqExceptGameEnd_eq hE
    rw [ht]
    cases a with
    | tick level => exact tick_apply_agrees level s t.gameEnd g
    | rotate =>
      simp only [GameAction.apply]
      exact rotate_apply_agrees s t.gameEnd g
    | reset => exact absurd rfl ha
    | moveSideways change =>
      simp only [GameAction.apply]
      exact moveSideways_apply_agrees change s t.gameEnd g
    | moveDownwards => exact moveDownwards_apply_agrees s t.gameEnd g
    | holdBlock =>
      simp only [GameAction.apply]
      exact holdBlock_apply_agrees s t.gameEnd g
  · exact ⟨by decide, rfl, by decide⟩

/-- Witness for C10: `HoldBlock` on the reached game-over state and on the
same state with `gameEnd` cleared. -/
theorem actions_ignore_gameEnd_witness :
    ResultAgreesExceptGameEnd (GameAction.apply 0 .holdBlock endedState 0)
      (GameAction.apply 0 .holdBlock { endedState with gameEnd := false } 0) :=
  actions_ignore_gameEnd.1 0 .holdBlock (fun h => GameAction.noConfusion h)
    endedState { endedState with gameEnd := false } 0 (by decide)

/-- **C6 (counterexample).** From the engine's spawn position (one row above
the visible top), the 20th `MoveDownwards` does NOT cause a bottom
collision: after 19 applications the I-piece is at row 18, the shifted
piece for the 20th application (the bottom-row piece) still descends
freely, and after 20 applications the board is still empty — it does not
contain the I-piece's cells at row 19. -/
theorem moveDown_twentieth_is_free_fall :
    (iterMoveDown 19 scenarioInit 0).map (fun p => p.1.currentBlock.group) =
      .ok [⟨3, 18⟩, ⟨4, 18⟩, ⟨5, 18⟩, ⟨6, 18⟩] ∧
    cantMoveDown IBottom board = .ok false ∧
    (iterMoveDown 20 scenarioInit 0).map
      (fun p => (p.1.boardState, p.1.currentBlock, p.1.score)) =
      .ok (board, IBottom, 0) ∧
    board ≠ lockedBoard := by
  refine ⟨by decide, by decide, by decide, by decide⟩

/-- **C6 (amended).** Starting from the empty board with the I-piece just
spawned (one row above the visible top), 20 `MoveDownwards` applications
bring it to the bottom row and the 21st — the one whose shifted piece hits
the bottom — locks it: the board then contains exactly the I-piece's 4
cells in row 19, the active piece is the old preview piece shifted one row
up, and the score is unchanged. -/
theorem moveDown_locks_on_twenty_first :
    (iterMoveDown 21 scenarioInit 0).map
      (fun p => (p.1.boardState, p.1.currentBlock, p.1.score)) =
      .ok (lockedBoard, moveToBoard OBLOCK, 0) := by
  decide

/-- **C2.** The engine is not exception-free: `restingState` is reachable
(20 downward moves from the spawn scenario) and rotating there makes
`cantRotate` evaluate `checkBlockCollision` first, indexing `board[20]` —
an `undefined` row — before `checkBottomCollision` could reject;
`Rotate.apply` therefore throws instead of rejecting the rotation. -/
theorem rotate_at_bottom_row_throws :
    iterMoveDown 20 scenarioInit 0 = .ok (restingState, 0) ∧
    Rotate.apply restingState = .error () := by
  refine ⟨by decide, by decide⟩

/-- **C1.** Locking the I-piece into the almost-full bottom row clears that
row, removes exactly it (the 19 other rows are preserved in order), adds
`SCORE_PER_ROW` to the score and recomputes the level — but the prepended
fresh row consists of ten `undefined` cells, not ten zeros:
`[...Array(10).map(() => 0)]` maps over holes and never writes a 0. -/
theorem cleared_row_replaced_by_undefined_row :
    (MoveDownwards.apply rowScenarioState 0).map
      (fun p => (p.1.boardState, p.1.score, p.1.level)) =
      .ok (List.replicate 10 (none : Cell) :: List.replicate 19 (List.replicate 10 (some 0)),
        10, 1) ∧
    List.replicate 10 (none : Cell) ≠ List.replicate 10 (some 0 : Cell) := by
  refine ⟨by decide, by decide⟩
